import Mathlib

/-!
Verification of the CRaC (checkpoint/restore) core of
`src/hotspot/os/linux/os_linux.cpp` against its design specification.

The C++ code is shallowly embedded: each C function of the CR core is
translated into an executable Lean definition over explicit state, and the
specified properties are proved (or refuted) about those definitions.
Machine integers of the source are modelled as `Nat`/`Int`; fallible
operations return `Option`; kernel state touched through `fcntl` is passed
explicitly.
-/

namespace CracVerify

/-! ### File-type constants (Linux `stat.h`) -/

def S_IFMT   : Nat := 0xF000
def S_IFSOCK : Nat := 0xC000
def S_IFLNK  : Nat := 0xA000
def S_IFREG  : Nat := 0x8000
def S_IFBLK  : Nat := 0x6000
def S_IFDIR  : Nat := 0x4000
def S_IFCHR  : Nat := 0x2000
def S_IFIFO  : Nat := 0x1000

/-- the `O_NONBLOCK` flag used by the alias probe (`test_flag` in `same_fd`) -/
def O_NONBLOCK : Nat := 0x800

/-- the `F_SETFL` fcntl command number (Linux) -/
def F_SETFL : Nat := 4

/-! ### Data model: `FdsInfo::state_t`, `struct stat`, marks -/

/-- `FdsInfo::state_t`: the source encodes states as signed sentinels
`INVALID=-3, CLOSED=-2, ROOT=-1, DUP_OF_0+j=j`; modelled as a tagged variant. -/
inductive FdState where
  | INVALID : FdState
  | CLOSED : FdState
  | ROOT : FdState
  | DUP_OF : Nat → FdState
deriving DecidableEq, Repr

/-- the fields of the cached `struct stat` that the CR core reads;
`st_rdev` is kept in decoded `major`/`minor` form as the code only reads
it through the `major()`/`minor()` macros -/
structure StatS where
  st_dev : Nat
  st_ino : Nat
  st_nlink : Nat
  st_mode : Nat
  st_rdev_major : Nat
  st_rdev_minor : Nat
deriving DecidableEq, Repr

/-- `FdsInfo::mark_t` bit `M_ZIP_CACHE` -/
def M_ZIP_CACHE : Nat := 1
/-- `FdsInfo::mark_t` bit `M_CANT_RESTORE` -/
def M_CANT_RESTORE : Nat := 2
/-- `FdsInfo::mark_t` bit `M_CLASSPATH` -/
def M_CLASSPATH : Nat := 4
/-- `FdsInfo::mark_t` bit `M_PERSISTENT` -/
def M_PERSISTENT : Nat := 8

/-- `FdsInfo::check(i, m)`: tests a mark bit in the bitmask -/
def checkMark (mark m : Nat) : Bool := (mark &&& m) != 0

/-- `same_stat` from the source: device and inode equality -/
def same_stat (a b : StatS) : Bool := a.st_dev == b.st_dev && a.st_ino == b.st_ino

/-! ### C10: `restore_start_time` / `uptime_since_restore` -/

/-- `os::Linux::restore_start_time`: `if (!_restore_start_time) return -1;
return _restore_start_time;` where the argument is the process-wide
`_restore_start_time` (zero-initialised, set on restore) -/
def restore_start_time (rst : Int) : Int :=
  if rst = 0 then -1 else rst

/-- `os::Linux::uptime_since_restore`: `if (!_restore_start_counter) return -1;
return javaTimeNanos() - _restore_start_counter;`; `now` stands for the
current `javaTimeNanos()` reading -/
def uptime_since_restore (rsc now : Int) : Int :=
  if rsc = 0 then -1 else now - rsc

/-- C10: while the process-wide restore time and counter are still zero both
queries return -1; once a restore recorded (nonzero) values, the first query
returns the recorded wall-clock time and the second the current monotonic
reading minus the recorded counter. -/
theorem C10_restore_queries (t c now : Int) :
    restore_start_time 0 = -1 ∧
    uptime_since_restore 0 now = -1 ∧
    (t ≠ 0 → restore_start_time t = t) ∧
    (c ≠ 0 → uptime_since_restore c now = now - c) := by
  refine ⟨by simp [restore_start_time], by simp [uptime_since_restore], ?_, ?_⟩
  · intro ht; simp [restore_start_time, ht]
  · intro hc; simp [uptime_since_restore, hc]

/-- C10 witness: the theorem instantiated at recorded time 5, counter 7,
current monotonic reading 100. -/
theorem C10_restore_queries_witness :
    restore_start_time 0 = -1 ∧
    uptime_since_restore 0 100 = -1 ∧
    restore_start_time 5 = 5 ∧
    uptime_since_restore 7 100 = 93 := by
  have h := C10_restore_queries 5 7 100
  exact ⟨h.1, h.2.1, h.2.2.1 (by decide), by rw [h.2.2.2 (by decide)]; decide⟩

/-! ### C9: `os::Linux::deregister_persistent_fd` search loop -/

/-- `struct PersistentResourceDesc` -/
structure PersistentResourceDesc where
  _fd : Int
  _st_dev : Nat
  _st_ino : Nat
deriving DecidableEq, Repr

/-- the search loop of `os::Linux::deregister_persistent_fd`, run with
explicit fuel; `none` means the loop is still running after `fuel`
iterations.  The loop body is translated verbatim from the source:
when the entry at `i` does not match, the body falls through to the next
iteration without modifying `i`. -/
def deregLoopRun (regs : List PersistentResourceDesc) (fd : Int) (dev ino : Nat) :
    Nat → Nat → Option Nat
  | 0, _ => none
  | fuel + 1, i =>
    if h : i < regs.length then
      let pr := regs.get ⟨i, h⟩
      if pr._fd = fd ∧ pr._st_dev = dev ∧ pr._st_ino = ino then
        some i
      else
        deregLoopRun regs fd dev ino fuel i
    else
      some i

/-- C9: evidence of the divergence — with a one-entry registry whose entry
does not match the requested descriptor, the search loop of
`deregister_persistent_fd` never reaches either a matching entry or the end
of the registry: for every amount of fuel it is still running (the loop body
never advances `i`). -/
theorem C9_dereg_loop_diverges (fuel : Nat) :
    deregLoopRun [⟨5, 1, 1⟩] 6 1 1 fuel 0 = none := by
  induction fuel with
  | zero => rfl
  | succ n ih => simpa [deregLoopRun] using ih

/-! ### C1: the per-descriptor decision of `VM_Crac::doit` -/

/-- the `JVM_CR_FAIL*` failure-kind constants used in `CracFailDep::_type`
(`JVM_CR_FAIL_SOCK`, `JVM_CR_FAIL_FILE`, `JVM_CR_FAIL_PIPE`, `JVM_CR_FAIL`) -/
inductive CrFailKind where
  | SOCK : CrFailKind
  | FILE : CrFailKind
  | PIPE : CrFailKind
  | GENERIC : CrFailKind
deriving DecidableEq, Repr

/-- `stat2stfail` from the source: a switch on `mode & S_IFMT` where
`S_IFLNK`, `S_IFREG`, `S_IFBLK`, `S_IFDIR`, `S_IFCHR` all fall through to
`JVM_CR_FAIL_FILE` and the default is `JVM_CR_FAIL` -/
def stat2stfail (mode : Nat) : CrFailKind :=
  let m := mode &&& S_IFMT
  if m = S_IFSOCK then .SOCK
  else if m = S_IFLNK then .FILE
  else if m = S_IFREG then .FILE
  else if m = S_IFBLK then .FILE
  else if m = S_IFDIR then .FILE
  else if m = S_IFCHR then .FILE
  else if m = S_IFIFO then .PIPE
  else .GENERIC

/-- `VM_Crac::is_socket_from_jcmd`: false when there is no attach operation,
otherwise compares the descriptor with the attach operation's socket -/
def is_socket_from_jcmd (attachSock : Option Nat) (sock : Nat) : Bool :=
  match attachSock with
  | none => false
  | some s => sock == s

/-- `FdsInfo::get_state(i, CLOSED)`: the recorded state when `i` is within
the table, the supplied default `CLOSED` beyond it (used on the baseline
snapshot `_vm_inited_fds` inside `VM_Crac::doit`) -/
def get_state_or_closed (tbl : List FdState) (i : Nat) : FdState :=
  if i < tbl.length then tbl.getD i .INVALID else .CLOSED

/-- outcome of one iteration of the policy loop in `VM_Crac::doit` for an
open slot: either the descriptor is allowed (the loop `continue`s) or it
blocks the checkpoint and a failure of the given kind is appended -/
inductive FdDecision where
  | allowed : FdDecision
  | blocking : CrFailKind → FdDecision
deriving DecidableEq, Repr

/-- the decision chain of the policy loop body in `VM_Crac::doit`
for a non-`CLOSED` slot `i`, translated in source order:
baseline (`_vm_inited_fds`) check, `/dev/random`//`/dev/urandom` character
device check (the source nests the major/minor test under `S_ISCHR`),
`M_CLASSPATH && !M_CANT_RESTORE`, `M_PERSISTENT`, jcmd-socket check
(nested under `S_ISSOCK`), otherwise a failure with kind
`stat2stfail(st_mode & S_IFMT)` -/
def fd_decision (baseline : List FdState) (attachSock : Option Nat) (i : Nat)
    (st : StatS) (mark : Nat) : FdDecision :=
  if get_state_or_closed baseline i ≠ .CLOSED then .allowed
  else if st.st_mode &&& S_IFMT = S_IFCHR ∧
      (st.st_rdev_major = 1 ∧ (st.st_rdev_minor = 8 ∨ st.st_rdev_minor = 9)) then .allowed
  else if checkMark mark M_CLASSPATH ∧ ¬ checkMark mark M_CANT_RESTORE then .allowed
  else if checkMark mark M_PERSISTENT then .allowed
  else if st.st_mode &&& S_IFMT = S_IFSOCK ∧ is_socket_from_jcmd attachSock i then .allowed
  else .blocking (stat2stfail (st.st_mode &&& S_IFMT))

/-- the file-type-to-failure-kind mapping exactly as the specification words
it: socket maps to SOCK, symlink/regular/block/directory/character map to
FILE, FIFO maps to PIPE, anything else maps to GENERIC -/
def claim_fail_kind (st : StatS) : CrFailKind :=
  let t := st.st_mode &&& S_IFMT
  if t = S_IFSOCK then .SOCK
  else if t = S_IFLNK ∨ t = S_IFREG ∨ t = S_IFBLK ∨ t = S_IFDIR ∨ t = S_IFCHR then .FILE
  else if t = S_IFIFO then .PIPE
  else .GENERIC

/-- the spec's rule (1) reading: the descriptor was already open in the
baseline snapshot taken at VM start -/
def baseline_open (baseline : List FdState) (i : Nat) : Bool :=
  match baseline[i]? with
  | some s => s != FdState.CLOSED
  | none => false

/-- the Resource Policy Engine decision exactly as the specification words
it, with `baseline_open` reading rule (1): the slot exists in the baseline
snapshot and is not closed there -/
def policy_decision_spec (baseline : List FdState) (attachSock : Option Nat) (i : Nat)
    (st : StatS) (mark : Nat) : FdDecision :=
  if baseline_open baseline i then .allowed
  else if st.st_mode &&& S_IFMT = S_IFCHR ∧ st.st_rdev_major = 1 ∧
      (st.st_rdev_minor = 8 ∨ st.st_rdev_minor = 9) then .allowed
  else if checkMark mark M_CLASSPATH ∧ ¬ checkMark mark M_CANT_RESTORE then .allowed
  else if checkMark mark M_PERSISTENT then .allowed
  else if st.st_mode &&& S_IFMT = S_IFSOCK ∧ is_socket_from_jcmd attachSock i then .allowed
  else .blocking (claim_fail_kind st)

/-- masking with `S_IFMT` is idempotent, so `stat2stfail(mode & S_IFMT)`
tests the same type field as the claim's one-mask formulation -/
theorem and_S_IFMT_idem (m : Nat) : (m &&& S_IFMT) &&& S_IFMT = m &&& S_IFMT := by
  rw [Nat.and_assoc, Nat.and_self]

/-- the source's fall-through switch agrees with the claim's mapping -/
theorem stat2stfail_eq_claim (st : StatS) :
    stat2stfail (st.st_mode &&& S_IFMT) = claim_fail_kind st := by
  unfold stat2stfail claim_fail_kind
  simp only [and_S_IFMT_idem]
  split_ifs <;> first | rfl | tauto

/-- the baseline check of the source (`get_state(i, CLOSED) != CLOSED`)
coincides with the spec's reading of being open in the baseline snapshot -/
theorem get_state_or_closed_spec (tbl : List FdState) (i : Nat) :
    (get_state_or_closed tbl i ≠ .CLOSED) ↔ baseline_open tbl i = true := by
  unfold get_state_or_closed baseline_open
  by_cases h : i < tbl.length
  · rw [if_pos h]
    have he : tbl[i]? = some (tbl.getD i .INVALID) := by
      rw [List.getElem?_eq_getElem h]
      simp [List.getD_eq_getElem?_getD, List.getElem?_eq_getElem h]
    rw [he]
    simp
  · rw [if_neg h]
    have he : tbl[i]? = none := by
      rw [List.getElem?_eq_none_iff]
      omega
    rw [he]
    simp

/-- C1: for every open descriptor slot, the decision chain of
`VM_Crac::doit` equals the specification's ordered rule list — baseline
snapshot first, then the entropy character devices (major 1, minor 8 or 9),
then CLASSPATH-and-restorable, then PERSISTENT, then the jcmd attach
socket, and otherwise BLOCKING with kind socket→SOCK,
symlink/regular/block/directory/character→FILE, FIFO→PIPE, else GENERIC. -/
theorem C1_decision_order (baseline : List FdState) (attachSock : Option Nat)
    (i : Nat) (st : StatS) (mark : Nat) :
    fd_decision baseline attachSock i st mark =
      policy_decision_spec baseline attachSock i st mark := by
  unfold fd_decision policy_decision_spec
  rw [stat2stfail_eq_claim]
  by_cases hb : get_state_or_closed baseline i ≠ .CLOSED
  · rw [if_pos hb, if_pos ((get_state_or_closed_spec baseline i).1 hb)]
  · rw [if_neg hb,
      if_neg (fun hc => hb ((get_state_or_closed_spec baseline i).2 hc))]

/-! ### C3: the policy loop of `VM_Crac::doit` and its overall-ok result -/

/-- one slot of the constructed FD table as the policy loop reads it:
recorded state, cached stat, mark bitmask -/
structure FdRec where
  state : FdState
  st : StatS
  mark : Nat
deriving DecidableEq, Repr

/-- the policy loop of `VM_Crac::doit`: `ok` starts as `!_dry_run`; each
slot whose state is `CLOSED` is skipped; every other slot runs the decision
chain; a blocking slot clears `ok` and appends a failure of the decided
kind. `i` is the descriptor number of the head of `rest`. -/
def eval_go (baseline : List FdState) (attachSock : Option Nat) :
    Nat → List FdRec → Bool → List CrFailKind → Bool × List CrFailKind
  | _, [], ok, acc => (ok, acc)
  | i, f :: rest, ok, acc =>
    if f.state = .CLOSED then
      eval_go baseline attachSock (i + 1) rest ok acc
    else
      match fd_decision baseline attachSock i f.st f.mark with
      | .allowed => eval_go baseline attachSock (i + 1) rest ok acc
      | .blocking kind => eval_go baseline attachSock (i + 1) rest false (acc ++ [kind])

/-- the resource-evaluation phase of `VM_Crac::doit` over the whole FD
table: local `ok` flag and accumulated `CracFailDep` kinds -/
def eval_fds (dry_run : Bool) (baseline : List FdState) (attachSock : Option Nat)
    (fds : List FdRec) : Bool × List CrFailKind :=
  eval_go baseline attachSock 0 fds (!dry_run) []

/-- the failure kinds the policy loop appends for a suffix of the table
starting at descriptor number `i` -/
def blockKinds (baseline : List FdState) (attachSock : Option Nat) :
    Nat → List FdRec → List CrFailKind
  | _, [] => []
  | i, f :: rest =>
    if f.state = .CLOSED then
      blockKinds baseline attachSock (i + 1) rest
    else
      match fd_decision baseline attachSock i f.st f.mark with
      | .allowed => blockKinds baseline attachSock (i + 1) rest
      | .blocking kind => kind :: blockKinds baseline attachSock (i + 1) rest

theorem eval_go_eq (baseline : List FdState) (attachSock : Option Nat) :
    ∀ (rest : List FdRec) (i : Nat) (ok : Bool) (acc : List CrFailKind),
      eval_go baseline attachSock i rest ok acc =
        (ok && (blockKinds baseline attachSock i rest).isEmpty,
         acc ++ blockKinds baseline attachSock i rest)
  | [], i, ok, acc => by simp [eval_go, blockKinds]
  | f :: rest, i, ok, acc => by
    unfold eval_go blockKinds
    by_cases hc : f.state = .CLOSED
    · simp only [if_pos hc]
      exact eval_go_eq baseline attachSock rest (i + 1) ok acc
    · simp only [if_neg hc]
      cases hd : fd_decision baseline attachSock i f.st f.mark with
      | allowed =>
        dsimp only
        exact eval_go_eq baseline attachSock rest (i + 1) ok acc
      | blocking kind =>
        dsimp only
        rw [eval_go_eq baseline attachSock rest (i + 1) false (acc ++ [kind])]
        simp [List.isEmpty]

/-- C3 counterexample: a dry run over a table with no blocking descriptors
(one slot, inherited from the baseline snapshot, hence allowed) produces an
empty failure list but overall-ok false — `ok` is initialised to
`!_dry_run` in the source, so a dry run never reports overall-ok true,
contrary to the claim. -/
theorem C3_dry_run_not_ok :
    (eval_fds true [FdState.ROOT] none
        [⟨FdState.ROOT, ⟨1, 1, 1, S_IFREG, 0, 0⟩, 0⟩]).2 = [] ∧
    (eval_fds true [FdState.ROOT] none
        [⟨FdState.ROOT, ⟨1, 1, 1, S_IFREG, 0, 0⟩, 0⟩]).1 = false := by
  constructor <;> rfl

/-- C3 amended: the overall-ok flag computed by the policy loop is true iff
the operation is not a dry run and zero failure records were produced; in
particular a dry run always yields overall-ok false (with an empty failure
list when no descriptor blocks), and a non-dry run with zero blocking
descriptors yields overall-ok true and an empty failure list. -/
theorem C3_ok_iff_no_failures (dry_run : Bool) (baseline : List FdState)
    (attachSock : Option Nat) (fds : List FdRec) :
    (eval_fds dry_run baseline attachSock fds).1 = true ↔
      (dry_run = false ∧ (eval_fds dry_run baseline attachSock fds).2 = []) := by
  unfold eval_fds
  rw [eval_go_eq baseline attachSock fds 0 (!dry_run) []]
  simp only [List.nil_append]
  cases dry_run <;> cases hb : blockKinds baseline attachSock 0 fds <;>
    simp [List.isEmpty, hb]

/-! ### C2: `CracRestoreParameters::write_to` / `read_from`

Strings are byte lists; a serialized NUL-terminated string is the bytes
followed by byte 0.  The fixed-size header is kept structured: `read_from`
reinterprets the leading bytes as the very same `struct header` the writer
stored, so the header round-trips by memory layout and only the payload
needs byte-level modelling. -/

/-- `CracRestoreParameters::header` -/
structure RpHeader where
  _restore_time : Int
  _restore_counter : Int
  _nprops : Int
  _env_memory_size : Int
deriving DecidableEq, Repr

/-- a NUL-terminated serialization of one string (`write(fd, s, strlen(s)+1)`) -/
def cstr (s : List Nat) : List Nat := s ++ [0]

/-- `env_vars_size`: total byte length of the environment block,
`strlen(*env) + 1` summed over all entries -/
def env_vars_size (env : List (List Nat)) : Nat :=
  (env.map (fun e => e.length + 1)).sum

/-- `CracRestoreParameters::write_to`: emits the header (property count and
environment byte length), then each property as a NUL-terminated
`key=value` string, then the environment entries, then the argument
string.  The guarantee `0 < len && len < sizeof(prop)` (4096) aborts the VM
when violated, modelled as `none`. -/
def write_to (props env : List (List Nat)) (args : List Nat)
    (restore_time restore_counter : Int) : Option (RpHeader × List Nat) :=
  if props.all (fun p => 0 < p.length && p.length < 4096) then
    some ({ _restore_time := restore_time, _restore_counter := restore_counter,
            _nprops := (props.length : Int), _env_memory_size := (env_vars_size env : Int) },
          (props.map cstr).flatten ++ (env.map cstr).flatten ++ cstr args)
  else
    none

/-- `strlen`-delimited read of one C string: the bytes before the first NUL -/
def strlenTake (bs : List Nat) : List Nat := bs.takeWhile (fun b => b ≠ 0)

/-- the property-reading loop of `read_from`: `nprops` times, take the
string under the cursor and advance the cursor by `strlen + 1` -/
def readProps : Nat → List Nat → List (List Nat) × List Nat
  | 0, bs => ([], bs)
  | n + 1, bs =>
    let p := strlenTake bs
    let (ps, r) := readProps n (bs.drop (p.length + 1))
    (p :: ps, r)

/-- the environment-installing loop of `read_from`: while the cursor is
before the end of the copied `_env_memory_size` bytes, `putenv` the string
under the cursor and advance by `strlen + 1` -/
def splitEnv (bs : List Nat) : List (List Nat) :=
  match bs with
  | [] => []
  | b :: rest =>
    let e := strlenTake (b :: rest)
    e :: splitEnv ((b :: rest).drop (e.length + 1))
termination_by bs.length
decreasing_by
  simp only [List.length_drop, List.length_cons]
  omega

/-- the parsed result of `CracRestoreParameters::read_from`: restore
time/counter installed from the header, the `_properties` array, the
environment entries passed to `putenv`, and the trailing `_args` string -/
structure ReadRes where
  time : Int
  counter : Int
  props : List (List Nat)
  envs : List (List Nat)
  argsStr : List Nat
deriving DecidableEq, Repr

/-- `CracRestoreParameters::read_from` on a complete in-memory copy of the
segment: installs `_restore_start_time`/`_restore_start_counter` from the
header, walks `_nprops` NUL-terminated property strings, copies
`_env_memory_size` bytes of environment and splits them at NULs, and
exposes the rest as the NUL-terminated argument string -/
def read_from (hdr : RpHeader) (payload : List Nat) : ReadRes :=
  let pr := readProps hdr._nprops.toNat payload
  let envBlock := pr.2.take hdr._env_memory_size.toNat
  let rest2 := pr.2.drop hdr._env_memory_size.toNat
  { time := hdr._restore_time, counter := hdr._restore_counter,
    props := pr.1, envs := splitEnv envBlock, argsStr := strlenTake rest2 }

/-- reading one serialized C string from the head of a buffer recovers the
string and leaves exactly the tail, provided the string itself is NUL-free -/
theorem cstr_parse (s rest : List Nat) (h : ¬ 0 ∈ s) :
    strlenTake (cstr s ++ rest) = s ∧
    (cstr s ++ rest).drop (s.length + 1) = rest := by
  induction s with
  | nil => simp [cstr, strlenTake]
  | cons b bs ih =>
    have hb : b ≠ 0 := fun hb0 => h (by simp [hb0])
    have hbs : ¬ 0 ∈ bs := fun hm => h (by simp [hm])
    have ⟨ih1, ih2⟩ := ih hbs
    constructor
    · simpa [cstr, strlenTake, hb] using ih1
    · simp [cstr]

/-- the property loop recovers exactly the written NUL-free property
strings and leaves the cursor at the first byte after them -/
theorem readProps_cstrs (props : List (List Nat)) (rest : List Nat)
    (h : ∀ p ∈ props, ¬ 0 ∈ p) :
    readProps props.length ((props.map cstr).flatten ++ rest) = (props, rest) := by
  induction props with
  | nil => simp [readProps]
  | cons p ps ih =>
    have hp : ¬ 0 ∈ p := h p (by simp)
    have hps : ∀ q ∈ ps, ¬ 0 ∈ q := fun q hq => h q (by simp [hq])
    have harr : (List.map cstr (p :: ps)).flatten ++ rest =
        cstr p ++ ((List.map cstr ps).flatten ++ rest) := by
      simp [cstr]
    rw [List.length_cons]
    unfold readProps
    rw [harr]
    dsimp only
    rw [(cstr_parse p _ hp).1, (cstr_parse p _ hp).2, ih hps]

/-- the unfolding equation of `splitEnv` on a nonempty block -/
theorem splitEnv_cons (b : Nat) (rest : List Nat) :
    splitEnv (b :: rest) =
      strlenTake (b :: rest) ::
        splitEnv ((b :: rest).drop ((strlenTake (b :: rest)).length + 1)) := by
  rw [splitEnv]

/-- splitting the serialized environment block at NULs recovers exactly the
written NUL-free entries -/
theorem splitEnv_cstrs (env : List (List Nat)) (h : ∀ e ∈ env, ¬ 0 ∈ e) :
    splitEnv (env.map cstr).flatten = env := by
  induction env with
  | nil => simp [splitEnv]
  | cons e es ih =>
    have he : ¬ 0 ∈ e := h e (by simp)
    have hes : ∀ q ∈ es, ¬ 0 ∈ q := fun q hq => h q (by simp [hq])
    have harr : (List.map cstr (e :: es)).flatten =
        cstr e ++ (List.map cstr es).flatten := by
      simp
    rw [harr]
    match hm : cstr e ++ (List.map cstr es).flatten with
    | [] => simp [cstr] at hm
    | b :: bs =>
      rw [splitEnv_cons, ← hm, (cstr_parse e _ he).1, (cstr_parse e _ he).2, ih hes]

/-- the byte length of the serialized environment block equals the header's
`_env_memory_size` -/
theorem env_block_length (env : List (List Nat)) :
    (env.map cstr).flatten.length = env_vars_size env := by
  induction env with
  | nil => simp [env_vars_size]
  | cons e es ih =>
    simp only [List.map_cons, List.flatten_cons, List.length_append, env_vars_size,
      List.map_cons, List.sum_cons] at *
    simp [cstr, ih, env_vars_size]

/-- C2: writing a RestoreParameterBlock with P properties (each a NUL-free
`key=value` string shorter than 4096 bytes), a NUL-free environment block
and a NUL-free argument string, and reading it back, succeeds and yields
exactly the P byte-identical property strings, the same environment
entries (hence the same `env_vars_size` bytes installed NUL-terminated),
the argument string unchanged, and the written restore time and counter. -/
theorem C2_roundtrip (props env : List (List Nat)) (args : List Nat)
    (t c : Int)
    (hp : ∀ p ∈ props, 0 < p.length ∧ p.length < 4096 ∧ ¬ 0 ∈ p)
    (he : ∀ e ∈ env, ¬ 0 ∈ e) (ha : ¬ 0 ∈ args) :
    ∃ hdr payload, write_to props env args t c = some (hdr, payload) ∧
      hdr._nprops = (props.length : Int) ∧
      hdr._env_memory_size = (env_vars_size env : Int) ∧
      read_from hdr payload =
        { time := t, counter := c, props := props, envs := env, argsStr := args } := by
  have hguard : props.all (fun p => 0 < p.length && p.length < 4096) = true := by
    rw [List.all_eq_true]
    intro p hmem
    have := hp p hmem
    simp [this.1, this.2.1]
  refine ⟨_, _, by rw [write_to, if_pos hguard], rfl, rfl, ?_⟩
  have hnp : ∀ p ∈ props, ¬ 0 ∈ p := fun p hm => (hp p hm).2.2
  have h3 : ((env.map cstr).flatten ++ cstr args).take (env_vars_size env) =
      (env.map cstr).flatten := by
    rw [← env_block_length env]
    exact List.take_left _ _
  have h4 : ((env.map cstr).flatten ++ cstr args).drop (env_vars_size env) =
      cstr args := by
    rw [← env_block_length env]
    exact List.drop_left _ _
  have h5 : strlenTake (cstr args) = args := by
    have := cstr_parse args [] ha
    simpa using this.1
  unfold read_from
  dsimp only
  rw [List.append_assoc, Int.toNat_natCast, Int.toNat_natCast,
    readProps_cstrs props _ hnp]
  dsimp only
  rw [h3, h4, splitEnv_cstrs env he, h5]

/-- C2 witness: a concrete round trip with two properties, one environment
entry, and a nonempty argument string. -/
theorem C2_roundtrip_witness :
    ∃ hdr payload,
      write_to [[97, 61, 98], [99, 61, 100]] [[75, 61, 86]] [106, 97, 114] 11 22 =
        some (hdr, payload) ∧
      hdr._nprops = ((2 : Nat) : Int) ∧
      hdr._env_memory_size = ((4 : Nat) : Int) ∧
      read_from hdr payload =
        { time := 11, counter := 22, props := [[97, 61, 98], [99, 61, 100]],
          envs := [[75, 61, 86]], argsStr := [106, 97, 114] } := by
  have h := C2_roundtrip [[97, 61, 98], [99, 61, 100]] [[75, 61, 86]] [106, 97, 114]
    11 22 (by decide) (by decide) (by decide)
  simpa [env_vars_size] using h

/-! ### C6/C7/C8: `call_crengine`, `checkpoint_restore`, and the tail of
`VM_Crac::doit` -/

/-- outcome of the fork/exec/waitpid sequence in `call_crengine` -/
inductive SpawnOutcome where
  | forkFailed : SpawnOutcome
  | exited : Nat → SpawnOutcome
  | signaled : SpawnOutcome
deriving DecidableEq, Repr

/-- environment of one engine invocation: whether `_crengine` is configured
and what the spawned child does.  `signaled` also stands for a failed
`waitpid`, which the source treats identically (`ret == -1 ||
!WIFEXITED(status)`). -/
structure EngineEnv where
  crengineSet : Bool
  spawn : SpawnOutcome
deriving DecidableEq, Repr

/-- `call_crengine`: -1 when no engine is configured or the fork fails or
the child did not exit normally; otherwise 0 iff the exit status is 0 -/
def call_crengine (e : EngineEnv) : Int :=
  if ¬ e.crengineSet then -1
  else
    match e.spawn with
    | .forkFailed => -1
    | .signaled => -1
    | .exited code => if code = 0 then 0 else -1

/-- whether `call_crengine` actually executed the external helper: a child
process was forked (the configured-engine check passed and `fork`
succeeded), so `execl <engine> checkpoint <dir>` ran in the child -/
def engine_invoked (e : EngineEnv) : Bool :=
  e.crengineSet && e.spawn != SpawnOutcome.forkFailed

/-- the Linux `SI_QUEUE` code carried by `siginfo_t::si_code` for
`sigqueue`-delivered signals -/
def SI_QUEUE : Int := -1

/-- the restore-signal metadata observed by `sigwaitinfo` -/
structure SigInfo where
  si_code : Int
  si_int : Int
deriving DecidableEq, Repr

/-- `JVM_CHECKPOINT_OK` / `JVM_CHECKPOINT_ERROR` -/
inductive CkptRet where
  | OK : CkptRet
  | ERROR : CkptRet
deriving DecidableEq, Repr

/-- result of `checkpoint_restore(&shmid)`: the return code, the value left
in `shmid`, and whether the `sigwaitinfo` suspension point was reached -/
structure CkptRes where
  ret : CkptRet
  shmid : Int
  waited : Bool
deriving DecidableEq, Repr

/-- `checkpoint_restore`: calls the engine; a negative engine result is a
checkpoint error before the signal wait; after the wait, metadata whose
code is not `SI_QUEUE` or whose payload is negative is a checkpoint error;
a positive payload is stored into `*shmid`; payload zero leaves `*shmid`
unchanged -/
def checkpoint_restore (e : EngineEnv) (sig : SigInfo) (shmid0 : Int) : CkptRes :=
  if call_crengine e < 0 then
    { ret := .ERROR, shmid := shmid0, waited := false }
  else if sig.si_code ≠ SI_QUEUE ∨ sig.si_int < 0 then
    { ret := .ERROR, shmid := shmid0, waited := true }
  else if 0 < sig.si_int then
    { ret := .OK, shmid := sig.si_int, waited := true }
  else
    { ret := .OK, shmid := shmid0, waited := true }

/-- the configuration flags read by the tail of `VM_Crac::doit` -/
structure CracFlags where
  heapDumpOnExc : Bool
  doThrowOnExc : Bool
  allowSkip : Bool
deriving DecidableEq, Repr

/-- observable outcome of `VM_Crac::doit`: the `_ok` field, the restore
parameters exposed to the caller (`_restore_parameters`: properties list,
environment entries installed, argument string — absent when no parameter
block was read), the process-wide `_restore_start_time` /
`_restore_start_counter`, and which side effects occurred -/
structure DoitRes where
  ok : Bool
  props : List (List Nat)
  envs : List (List Nat)
  argsStr : Option (List Nat)
  restoreTime : Int
  restoreCounter : Int
  heapDumped : Bool
  perfCheckpointed : Bool
  engineInvoked : Bool
  waited : Bool
  readShmid : Option Int
  perfRestored : Bool
deriving DecidableEq, Repr

/-- the tail of `VM_Crac::doit` after the policy loop, translated in source
order: optional heap dump, the throw-policy early return, performance
counter persistence (`PerfMemoryLinux::checkpoint`), the
`CRAllowToSkipCheckpoint` branch, `checkpoint_restore`, and the final
restore-parameter handling (`shmid <= 0 || !read_shm(shmid)` falls back to
recording the current wall-clock/monotonic readings).  `shmSeg` maps a
shared-memory id to the readable segment content, `none` standing for an
unopenable/unreadable segment; `nowMillis`/`nowNanos` are the
`javaTimeMillis()`/`javaTimeNanos()` readings taken at that point. -/
def doit_tail (fl : CracFlags) (perfCkptOk : Bool) (e : EngineEnv) (sig : SigInfo)
    (shmSeg : Int → Option (RpHeader × List Nat)) (nowMillis nowNanos : Int)
    (ev : Bool × List CrFailKind) : DoitRes :=
  let ok := ev.1
  let dumped := ¬ ok ∧ fl.heapDumpOnExc
  if ¬ ok ∧ fl.doThrowOnExc then
    { ok := false, props := [], envs := [], argsStr := none, restoreTime := 0,
      restoreCounter := 0, heapDumped := dumped, perfCheckpointed := false,
      engineInvoked := false, waited := false, readShmid := none, perfRestored := false }
  else if ¬ perfCkptOk then
    { ok := false, props := [], envs := [], argsStr := none, restoreTime := 0,
      restoreCounter := 0, heapDumped := dumped, perfCheckpointed := true,
      engineInvoked := false, waited := false, readShmid := none, perfRestored := false }
  else if fl.allowSkip then
    { ok := true, props := [], envs := [], argsStr := none, restoreTime := nowMillis,
      restoreCounter := nowNanos, heapDumped := dumped, perfCheckpointed := true,
      engineInvoked := false, waited := false, readShmid := none, perfRestored := true }
  else
    let cr := checkpoint_restore e sig 0
    if cr.ret = .ERROR then
      { ok := false, props := [], envs := [], argsStr := none, restoreTime := 0,
        restoreCounter := 0, heapDumped := dumped, perfCheckpointed := true,
        engineInvoked := engine_invoked e, waited := cr.waited, readShmid := none,
        perfRestored := true }
    else if cr.shmid ≤ 0 then
      { ok := true, props := [], envs := [], argsStr := none, restoreTime := nowMillis,
        restoreCounter := nowNanos, heapDumped := dumped, perfCheckpointed := true,
        engineInvoked := engine_invoked e, waited := cr.waited, readShmid := none,
        perfRestored := true }
    else
      match shmSeg cr.shmid with
      | none =>
        { ok := true, props := [], envs := [], argsStr := none, restoreTime := nowMillis,
          restoreCounter := nowNanos, heapDumped := dumped, perfCheckpointed := true,
          engineInvoked := engine_invoked e, waited := cr.waited,
          readShmid := some cr.shmid, perfRestored := true }
      | some (hdr, payload) =>
        let rr := read_from hdr payload
        { ok := true, props := rr.props, envs := rr.envs, argsStr := some rr.argsStr,
          restoreTime := rr.time, restoreCounter := rr.counter, heapDumped := dumped,
          perfCheckpointed := true, engineInvoked := engine_invoked e,
          waited := cr.waited, readShmid := some cr.shmid, perfRestored := true }

/-- the whole `VM_Crac::doit`: the policy loop over the classified FD table
followed by the checkpoint tail -/
def VM_Crac_doit (dry_run : Bool) (baseline : List FdState) (attachSock : Option Nat)
    (fds : List FdRec) (fl : CracFlags) (perfCkptOk : Bool) (e : EngineEnv)
    (sig : SigInfo) (shmSeg : Int → Option (RpHeader × List Nat))
    (nowMillis nowNanos : Int) : DoitRes :=
  doit_tail fl perfCkptOk e sig shmSeg nowMillis nowNanos
    (eval_fds dry_run baseline attachSock fds)

/-- a dry run always leaves the policy loop's `ok` flag false: the flag is
initialised to `!_dry_run` and is only ever cleared -/
theorem eval_fds_dry_run_false (baseline : List FdState) (attachSock : Option Nat)
    (fds : List FdRec) :
    (eval_fds true baseline attachSock fds).1 = false := by
  unfold eval_fds
  rw [eval_go_eq baseline attachSock fds 0 (!true) []]
  simp

/-- C6: for a delivery observed at the `sigwaitinfo` suspension point
(the run reached the wait: the throw-policy return, the performance-counter
persistence failure and the skip branch were not taken, and the engine
succeeded): (a) malformed metadata — code not `SI_QUEUE` or negative
payload — makes `checkpoint_restore` return `JVM_CHECKPOINT_ERROR` and the
attempt fail; (b) payload 0 completes the operation successfully with
unchanged properties and arguments, recording the wall-clock and monotonic
readings taken on delivery; (c) a positive payload is used as the
shared-memory id to read the RestoreParameterBlock, whose header times and
strings are installed. -/
theorem C6_restore_signal (fl : CracFlags) (e : EngineEnv) (sig : SigInfo)
    (shmSeg : Int → Option (RpHeader × List Nat)) (nowMillis nowNanos : Int)
    (ev : Bool × List CrFailKind)
    (hreach : ev.1 = true ∨ fl.doThrowOnExc = false)
    (hskip : fl.allowSkip = false)
    (heng : ¬ call_crengine e < 0) :
    ((sig.si_code ≠ SI_QUEUE ∨ sig.si_int < 0) →
      checkpoint_restore e sig 0 = { ret := .ERROR, shmid := 0, waited := true } ∧
      (doit_tail fl true e sig shmSeg nowMillis nowNanos ev).ok = false) ∧
    (sig.si_code = SI_QUEUE → sig.si_int = 0 →
      (doit_tail fl true e sig shmSeg nowMillis nowNanos ev).ok = true ∧
      (doit_tail fl true e sig shmSeg nowMillis nowNanos ev).props = [] ∧
      (doit_tail fl true e sig shmSeg nowMillis nowNanos ev).argsStr = none ∧
      (doit_tail fl true e sig shmSeg nowMillis nowNanos ev).restoreTime = nowMillis ∧
      (doit_tail fl true e sig shmSeg nowMillis nowNanos ev).restoreCounter = nowNanos) ∧
    (sig.si_code = SI_QUEUE → 0 < sig.si_int →
      (checkpoint_restore e sig 0).shmid = sig.si_int ∧
      ∀ hdr payload, shmSeg sig.si_int = some (hdr, payload) →
        (doit_tail fl true e sig shmSeg nowMillis nowNanos ev).props =
          (read_from hdr payload).props ∧
        (doit_tail fl true e sig shmSeg nowMillis nowNanos ev).argsStr =
          some (read_from hdr payload).argsStr ∧
        (doit_tail fl true e sig shmSeg nowMillis nowNanos ev).restoreTime =
          hdr._restore_time ∧
        (doit_tail fl true e sig shmSeg nowMillis nowNanos ev).restoreCounter =
          hdr._restore_counter) := by
  have hng : ¬ (¬ ev.1 = true ∧ fl.doThrowOnExc = true) := by
    rcases hreach with h | h
    · exact fun hc => hc.1 h
    · exact fun hc => by rw [h] at hc; exact Bool.false_ne_true hc.2
  refine ⟨?_, ?_, ?_⟩
  · intro hmal
    have hcr : checkpoint_restore e sig 0 =
        { ret := .ERROR, shmid := 0, waited := true } := by
      unfold checkpoint_restore
      rw [if_neg heng, if_pos hmal]
    refine ⟨hcr, ?_⟩
    unfold doit_tail
    rw [if_neg hng, if_neg (by simp), if_neg (by simp [hskip]), hcr]
    rfl
  · intro hq h0
    have hcr : checkpoint_restore e sig 0 =
        { ret := .OK, shmid := 0, waited := true } := by
      unfold checkpoint_restore
      rw [if_neg heng, if_neg (by simp [hq, h0]), if_neg (by simp [h0])]
    unfold doit_tail
    rw [if_neg hng, if_neg (by simp), if_neg (by simp [hskip]), hcr]
    exact ⟨rfl, rfl, rfl, rfl, rfl⟩
  · intro hq hpos
    have hcr : checkpoint_restore e sig 0 =
        { ret := .OK, shmid := sig.si_int, waited := true } := by
      unfold checkpoint_restore
      rw [if_neg heng, if_neg (by simp [hq]; omega), if_pos hpos]
    refine ⟨by rw [hcr], ?_⟩
    intro hdr payload hseg
    unfold doit_tail
    rw [if_neg hng, if_neg (by simp), if_neg (by simp [hskip]), hcr]
    have hle : ¬ ({ ret := CkptRet.OK, shmid := sig.si_int, waited := true } : CkptRes).shmid ≤ 0 := by
      simp; omega
    rw [if_neg (by simp), if_neg hle]
    simp [hseg, read_from]

/-- C6 witness: the theorem applied at a concrete reachable-wait run,
exercising the malformed case (non-queued code), the zero payload case and
the positive payload case against a one-property segment. -/
theorem C6_restore_signal_witness :
    (checkpoint_restore ⟨true, .exited 0⟩ ⟨0, 0⟩ 0 =
      { ret := .ERROR, shmid := 0, waited := true }) ∧
    ((doit_tail ⟨false, false, false⟩ true ⟨true, .exited 0⟩ ⟨SI_QUEUE, 0⟩
        (fun _ => none) 123 456 (true, [])).ok = true ∧
      (doit_tail ⟨false, false, false⟩ true ⟨true, .exited 0⟩ ⟨SI_QUEUE, 0⟩
        (fun _ => none) 123 456 (true, [])).restoreTime = 123) ∧
    ((checkpoint_restore ⟨true, .exited 0⟩ ⟨SI_QUEUE, 7⟩ 0).shmid = 7) := by
  refine ⟨?_, ⟨?_, ?_⟩, ?_⟩
  · exact ((C6_restore_signal ⟨false, false, false⟩ ⟨true, .exited 0⟩ ⟨0, 0⟩
      (fun _ => none) 123 456 (true, []) (Or.inl rfl) rfl (by decide)).1
      (by unfold SI_QUEUE; left; decide)).1
  · exact ((C6_restore_signal ⟨false, false, false⟩ ⟨true, .exited 0⟩ ⟨SI_QUEUE, 0⟩
      (fun _ => none) 123 456 (true, []) (Or.inl rfl) rfl (by decide)).2.1
      rfl rfl).1
  · exact ((C6_restore_signal ⟨false, false, false⟩ ⟨true, .exited 0⟩ ⟨SI_QUEUE, 0⟩
      (fun _ => none) 123 456 (true, []) (Or.inl rfl) rfl (by decide)).2.1
      rfl rfl).2.2.2.1
  · exact ((C6_restore_signal ⟨false, false, false⟩ ⟨true, .exited 0⟩ ⟨SI_QUEUE, 7⟩
      (fun _ => none) 123 456 (true, []) (Or.inl rfl) rfl (by decide)).2.2
      rfl (by decide)).1

/-- C7: when the engine run fails — the child cannot be spawned, exits with
a non-zero status, or terminates abnormally — and the run has otherwise
reached the engine invocation, the attempt returns with `_ok` still false,
the signal wait is never entered, and the persisted performance-counter
state is re-attached (`PerfMemoryLinux::restore`). -/
theorem C7_engine_failure (fl : CracFlags) (e : EngineEnv) (sig : SigInfo)
    (shmSeg : Int → Option (RpHeader × List Nat)) (nowMillis nowNanos : Int)
    (ev : Bool × List CrFailKind)
    (hreach : ev.1 = true ∨ fl.doThrowOnExc = false)
    (hskip : fl.allowSkip = false)
    (hfail : e.spawn = .forkFailed ∨ e.spawn = .signaled ∨
      ∃ code, code ≠ 0 ∧ e.spawn = .exited code) :
    call_crengine e = -1 ∧
    (doit_tail fl true e sig shmSeg nowMillis nowNanos ev).waited = false ∧
    (doit_tail fl true e sig shmSeg nowMillis nowNanos ev).perfRestored = true ∧
    (doit_tail fl true e sig shmSeg nowMillis nowNanos ev).ok = false := by
  have hcall : call_crengine e = -1 := by
    unfold call_crengine
    rcases hfail with h | h | ⟨code, hc, h⟩
    · rw [h]; cases hcs : e.crengineSet <;> simp
    · rw [h]; cases hcs : e.crengineSet <;> simp
    · rw [h]; cases hcs : e.crengineSet <;> simp [hc]
  have hng : ¬ (¬ ev.1 = true ∧ fl.doThrowOnExc = true) := by
    rcases hreach with h | h
    · exact fun hc => hc.1 h
    · exact fun hc => by rw [h] at hc; exact Bool.false_ne_true hc.2
  have hcr : checkpoint_restore e sig 0 =
      { ret := .ERROR, shmid := 0, waited := false } := by
    unfold checkpoint_restore
    rw [if_pos (by rw [hcall]; decide)]
  refine ⟨hcall, ?_⟩
  unfold doit_tail
  rw [if_neg hng, if_neg (by simp), if_neg (by simp [hskip]), hcr]
  exact ⟨rfl, rfl, rfl⟩

/-- C7 witness: the theorem applied at a run whose engine exits with
status 1. -/
theorem C7_engine_failure_witness :
    call_crengine ⟨true, .exited 1⟩ = -1 ∧
    (doit_tail ⟨false, true, false⟩ true ⟨true, .exited 1⟩ ⟨SI_QUEUE, 0⟩
      (fun _ => none) 123 456 (true, [])).waited = false ∧
    (doit_tail ⟨false, true, false⟩ true ⟨true, .exited 1⟩ ⟨SI_QUEUE, 0⟩
      (fun _ => none) 123 456 (true, [])).perfRestored = true ∧
    (doit_tail ⟨false, true, false⟩ true ⟨true, .exited 1⟩ ⟨SI_QUEUE, 0⟩
      (fun _ => none) 123 456 (true, [])).ok = false :=
  C7_engine_failure ⟨false, true, false⟩ ⟨true, .exited 1⟩ ⟨SI_QUEUE, 0⟩
    (fun _ => none) 123 456 (true, []) (Or.inl rfl) rfl
    (Or.inr (Or.inr ⟨1, by decide, rfl⟩))

/-- C8 counterexample: a dry run with `CRDoThrowCheckpointException`
disabled (and the other flags cleared, a configured engine that exits 0,
and a well-formed zero-payload signal) does invoke the external engine and
does enter the signal wait — the source only stops a dry run at the
`!ok && CRDoThrowCheckpointException` early return, so with that policy
flag off the dry run proceeds into the engine invocation, contrary to the
claim's `regardless of configuration flags`. -/
theorem C8_dry_run_reaches_engine :
    (VM_Crac_doit true [] none [] ⟨false, false, false⟩ true ⟨true, .exited 0⟩
      ⟨SI_QUEUE, 0⟩ (fun _ => none) 123 456).engineInvoked = true ∧
    (VM_Crac_doit true [] none [] ⟨false, false, false⟩ true ⟨true, .exited 0⟩
      ⟨SI_QUEUE, 0⟩ (fun _ => none) 123 456).waited = true := by
  constructor <;> rfl

/-- C8 amended: in every dry-run invocation with the throw-on-exception
policy (`CRDoThrowCheckpointException`) enabled, the external engine is
never invoked and the signal wait is never entered: the attempt returns
right after resource evaluation (before the performance-counter
persistence), with `_ok` false. -/
theorem C8_dry_run_stops_after_eval (baseline : List FdState)
    (attachSock : Option Nat) (fds : List FdRec) (fl : CracFlags)
    (perfCkptOk : Bool) (e : EngineEnv) (sig : SigInfo)
    (shmSeg : Int → Option (RpHeader × List Nat)) (nowMillis nowNanos : Int)
    (hthrow : fl.doThrowOnExc = true) :
    (VM_Crac_doit true baseline attachSock fds fl perfCkptOk e sig shmSeg
      nowMillis nowNanos).engineInvoked = false ∧
    (VM_Crac_doit true baseline attachSock fds fl perfCkptOk e sig shmSeg
      nowMillis nowNanos).waited = false ∧
    (VM_Crac_doit true baseline attachSock fds fl perfCkptOk e sig shmSeg
      nowMillis nowNanos).perfCheckpointed = false ∧
    (VM_Crac_doit true baseline attachSock fds fl perfCkptOk e sig shmSeg
      nowMillis nowNanos).ok = false := by
  unfold VM_Crac_doit doit_tail
  have hdry := eval_fds_dry_run_false baseline attachSock fds
  rw [if_pos (by rw [hdry, hthrow]; exact ⟨Bool.false_ne_true, rfl⟩)]
  exact ⟨rfl, rfl, rfl, rfl⟩

/-- C8 amended witness: the amended theorem applied to a concrete dry run
with the throw policy enabled. -/
theorem C8_dry_run_stops_after_eval_witness :
    (VM_Crac_doit true [] none [] ⟨false, true, false⟩ true ⟨true, .exited 0⟩
      ⟨SI_QUEUE, 0⟩ (fun _ => none) 123 456).engineInvoked = false ∧
    (VM_Crac_doit true [] none [] ⟨false, true, false⟩ true ⟨true, .exited 0⟩
      ⟨SI_QUEUE, 0⟩ (fun _ => none) 123 456).waited = false ∧
    (VM_Crac_doit true [] none [] ⟨false, true, false⟩ true ⟨true, .exited 0⟩
      ⟨SI_QUEUE, 0⟩ (fun _ => none) 123 456).perfCheckpointed = false ∧
    (VM_Crac_doit true [] none [] ⟨false, true, false⟩ true ⟨true, .exited 0⟩
      ⟨SI_QUEUE, 0⟩ (fun _ => none) 123 456).ok = false :=
  C8_dry_run_stops_after_eval [] none [] ⟨false, true, false⟩ true
    ⟨true, .exited 0⟩ ⟨SI_QUEUE, 0⟩ (fun _ => none) 123 456 rfl

/-! ### C5/C4: `FdsInfo::same_fd` and the alias scan of
`FdsInfo::initialize`

The descriptor table is a list mapping each descriptor number to the
kernel open-file description (OFD) it refers to (`none` for a closed
slot).  Duplicated descriptors share one OFD; status flags live on the
OFD, so the mutable `fcntl` flag state is an explicit map from OFD to
flags threaded through every probe. -/

/-- the kernel-side environment of the classifier: per-OFD stat, initial
status flags, whether `F_SETFL` writes take effect on the OFD (the
source's `flag write ignored` escape hatch), the uninitialised stat bytes
a closed slot leaves in the table, and the indeterminate argument the
stray restore call would pass were it interpreted as `F_SETFL` -/
structure Kern where
  statOf : Nat → StatS
  flags0 : Nat → Nat
  setflWorks : Nat → Bool
  garbageStat : Nat → StatS
  junkArg : Nat

/-- the stat the classifier cached for slot `fd` (`fstat` result for an
open slot, uninitialised memory for a closed one) -/
def statAt (k : Kern) (tbl : List (Option Nat)) (fd : Nat) : StatS :=
  match tbl.getD fd none with
  | none => k.garbageStat fd
  | some o => k.statOf o

/-- `fcntl(fd, F_GETFL)`: `none` models the -1 returned for a closed
descriptor -/
def getfl (tbl : List (Option Nat)) (fl : Nat → Nat) (fd : Nat) : Option Nat :=
  match tbl.getD fd none with
  | none => none
  | some o => some (fl o)

/-- `fcntl(fd, F_SETFL, v)`: updates the flags of `fd`'s open-file
description when the descriptor is open and flag writes take effect there;
a closed descriptor or an ignoring filesystem leaves the state unchanged -/
def setfl (k : Kern) (tbl : List (Option Nat)) (fl : Nat → Nat) (fd v : Nat) :
    Nat → Nat :=
  match tbl.getD fd none with
  | none => fl
  | some o => if k.setflWorks o then (fun o2 => if o2 = o then v else fl o2) else fl

/-- a raw two-argument `fcntl(fd, cmd)` call: it only touches the status
flags if `cmd` happens to equal `F_SETFL`, in which case the argument is
whatever garbage is on the stack -/
def fcntl_cmd (k : Kern) (tbl : List (Option Nat)) (fl : Nat → Nat) (fd cmd : Nat) :
    Nat → Nat :=
  if cmd = F_SETFL then setfl k tbl fl fd k.junkArg else fl

/-- `FdsInfo::same_fd(fd1, fd2)`, returning the probe verdict and the
kernel flag state after the probe: stat identity check, flags equality
check, toggle `O_NONBLOCK` on `fd1`, bail out if the write did not take,
compare `fd2`'s flags with the toggled value, then the source's restore
attempt — which is `fcntl(fd1, flags1)`, passing the saved flags as the
*command* instead of `fcntl(fd1, F_SETFL, flags1)`.  When `fd1` is closed
both `fcntl` reads return -1, `F_SETFL` fails, and the recheck cannot
match the toggled value, so the probe reports false with no state change
(collapsed into the `none` branch). -/
def same_fd (k : Kern) (tbl : List (Option Nat)) (fl : Nat → Nat) (fd1 fd2 : Nat) :
    Bool × (Nat → Nat) :=
  if ¬ same_stat (statAt k tbl fd1) (statAt k tbl fd2) then (false, fl)
  else
    let flags1 := getfl tbl fl fd1
    let flags2 := getfl tbl fl fd2
    if flags1 ≠ flags2 then (false, fl)
    else
      match flags1 with
      | none => (false, fl)
      | some f1 =>
        let new_flags1 := f1 ^^^ O_NONBLOCK
        let fl1 := setfl k tbl fl fd1 new_flags1
        if getfl tbl fl1 fd1 ≠ some new_flags1 then (false, fl1)
        else
          let new_flags2 := getfl tbl fl1 fd2
          let are_same := new_flags2 == some new_flags1
          (are_same, fcntl_cmd k tbl fl1 fd1 f1)

/-- what the probe actually decides: both descriptors are open, they refer
to the same open-file description, and flag writes take effect on it -/
def sameOFD (k : Kern) (tbl : List (Option Nat)) (fd1 fd2 : Nat) : Bool :=
  match tbl.getD fd1 none, tbl.getD fd2 none with
  | some o1, some o2 => o1 == o2 && k.setflWorks o1
  | _, _ => false

theorem getfl_eq_none (tbl : List (Option Nat)) (fl : Nat → Nat) (fd : Nat)
    (h : tbl.getD fd none = none) : getfl tbl fl fd = none := by
  unfold getfl; rw [h]

theorem getfl_eq_some (tbl : List (Option Nat)) (fl : Nat → Nat) (fd o : Nat)
    (h : tbl.getD fd none = some o) : getfl tbl fl fd = some (fl o) := by
  unfold getfl; rw [h]

theorem setfl_works (k : Kern) (tbl : List (Option Nat)) (fl : Nat → Nat)
    (fd v o : Nat) (h : tbl.getD fd none = some o) (hw : k.setflWorks o = true) :
    setfl k tbl fl fd v = fun o2 => if o2 = o then v else fl o2 := by
  unfold setfl; rw [h]; simp [hw]

theorem setfl_ignored (k : Kern) (tbl : List (Option Nat)) (fl : Nat → Nat)
    (fd v o : Nat) (h : tbl.getD fd none = some o) (hw : k.setflWorks o = false) :
    setfl k tbl fl fd v = fl := by
  unfold setfl; rw [h]; simp [hw]

theorem statAt_some (k : Kern) (tbl : List (Option Nat)) (fd o : Nat)
    (h : tbl.getD fd none = some o) : statAt k tbl fd = k.statOf o := by
  unfold statAt; rw [h]

/-- toggling a nonzero flag bit changes the flag word -/
theorem xor_nonblock_ne (f : Nat) : f ^^^ O_NONBLOCK ≠ f := by
  intro h
  have h2 := congrArg (fun x => f ^^^ x) h
  simp only [← Nat.xor_assoc, Nat.xor_self, Nat.zero_xor] at h2
  exact absurd h2 (by decide)

/-- the probe's verdict is independent of the current flag state and equals
`sameOFD`: two descriptors pass the probe exactly when they are duplicates
of one open-file description whose flag writes take effect.  In particular
the flag leak of a previous probe (C5) never changes a verdict: flags of a
shared description stay equal, and for distinct descriptions the toggled
value can never equal the peer's unchanged value. -/
theorem same_fd_fst (k : Kern) (tbl : List (Option Nat)) (fl : Nat → Nat)
    (fd1 fd2 : Nat) :
    (same_fd k tbl fl fd1 fd2).1 = sameOFD k tbl fd1 fd2 := by
  unfold same_fd sameOFD
  cases h1 : tbl.getD fd1 none with
  | none =>
    have hf1 := getfl_eq_none tbl fl fd1 h1
    cases h2 : tbl.getD fd2 none with
    | none =>
      have hf2 := getfl_eq_none tbl fl fd2 h2
      cases hs : same_stat (statAt k tbl fd1) (statAt k tbl fd2) <;>
        simp [hf1, hf2, hs]
    | some o2 =>
      have hf2 := getfl_eq_some tbl fl fd2 o2 h2
      cases hs : same_stat (statAt k tbl fd1) (statAt k tbl fd2) <;>
        simp [hf1, hf2, hs]
  | some o1 =>
    have hf1 := getfl_eq_some tbl fl fd1 o1 h1
    cases h2 : tbl.getD fd2 none with
    | none =>
      have hf2 := getfl_eq_none tbl fl fd2 h2
      cases hs : same_stat (statAt k tbl fd1) (statAt k tbl fd2) <;>
        simp [hf1, hf2, hs]
    | some o2 =>
      have hf2 := getfl_eq_some tbl fl fd2 o2 h2
      by_cases heq : o1 = o2
      · subst heq
        have hs : same_stat (statAt k tbl fd1) (statAt k tbl fd2) = true := by
          rw [statAt_some k tbl fd1 o1 h1, statAt_some k tbl fd2 o1 h2]
          simp [same_stat]
        cases hw : k.setflWorks o1 with
        | false =>
          have hsf := setfl_ignored k tbl fl fd1 (fl o1 ^^^ O_NONBLOCK) o1 h1 hw
          have hxs1 : ¬ (fl o1 = fl o1 ^^^ O_NONBLOCK) :=
            fun h => xor_nonblock_ne (fl o1) h.symm
          simp [hs, hf1, hf2, hsf, hw, hxs1]
        | true =>
          have hsf := setfl_works k tbl fl fd1 (fl o1 ^^^ O_NONBLOCK) o1 h1 hw
          have hg1 : getfl tbl
              (fun o2 => if o2 = o1 then fl o1 ^^^ O_NONBLOCK else fl o2) fd1 =
              some (fl o1 ^^^ O_NONBLOCK) := by
            rw [getfl_eq_some tbl _ fd1 o1 h1]
            simp
          have hg2 : getfl tbl
              (fun o2 => if o2 = o1 then fl o1 ^^^ O_NONBLOCK else fl o2) fd2 =
              some (fl o1 ^^^ O_NONBLOCK) := by
            rw [getfl_eq_some tbl _ fd2 o1 h2]
            simp
          simp [hs, hf1, hf2, hsf, hg1, hg2, hw]
      · cases hs : same_stat (statAt k tbl fd1) (statAt k tbl fd2) with
        | false => simp [hs, heq]
        | true =>
          by_cases hfe : fl o1 = fl o2
          · have hxs2 : ¬ (fl o2 = fl o2 ^^^ O_NONBLOCK) :=
              fun h => xor_nonblock_ne (fl o2) h.symm
            cases hw : k.setflWorks o1 with
            | false =>
              have hsf := setfl_ignored k tbl fl fd1 (fl o2 ^^^ O_NONBLOCK) o1 h1 hw
              simp [hs, hf1, hf2, hfe, hsf, hw, heq, hxs2]
            | true =>
              have hsf := setfl_works k tbl fl fd1 (fl o2 ^^^ O_NONBLOCK) o1 h1 hw
              have hno : ¬ (o2 = o1) := fun h => heq h.symm
              have hg1 : getfl tbl
                  (fun o3 => if o3 = o1 then fl o2 ^^^ O_NONBLOCK else fl o3) fd1 =
                  some (fl o2 ^^^ O_NONBLOCK) := by
                rw [getfl_eq_some tbl _ fd1 o1 h1]
                simp
              have hg2 : getfl tbl
                  (fun o3 => if o3 = o1 then fl o2 ^^^ O_NONBLOCK else fl o3) fd2 =
                  some (fl o2) := by
                rw [getfl_eq_some tbl _ fd2 o2 h2]
                simp [hno]
              have l1 : (fl o2 == fl o2 ^^^ O_NONBLOCK) = false := by
                simp [hxs2]
              have l2 : (o1 == o2) = false := by
                simp [heq]
              simp only [hs, hf1, hf2, hfe, hsf, hg1, hg2]
              simp [l1, l2]
          · simp [hs, hf1, hf2, hfe, heq]

/-- C5: evidence of the divergence — probing two descriptors duplicated
from one open-file description (stats equal, flags 2, effective flag
writes) succeeds, but the probe returns with the first descriptor's status
flags equal to `2 ^^^ O_NONBLOCK`, not the original 2: the toggled
`O_NONBLOCK` is left set because the restore call passes the saved flags
as the `fcntl` command instead of using `F_SETFL`.  The claim (and the
spec's no-side-effect contract) requires the flags observable after the
probe to equal those observed before. -/
theorem C5_probe_leaves_flag_toggled :
    (same_fd ⟨fun _ => ⟨1, 1, 1, S_IFREG, 0, 0⟩, fun _ => 2, fun _ => true,
        fun _ => ⟨0, 0, 0, 0, 0, 0⟩, 0⟩
      [some 0, some 0] (fun _ => 2) 1 0).1 = true ∧
    (same_fd ⟨fun _ => ⟨1, 1, 1, S_IFREG, 0, 0⟩, fun _ => 2, fun _ => true,
        fun _ => ⟨0, 0, 0, 0, 0, 0⟩, 0⟩
      [some 0, some 0] (fun _ => 2) 1 0).2 0 = 2 ^^^ O_NONBLOCK ∧
    2 ^^^ O_NONBLOCK ≠ 2 := by
  refine ⟨rfl, rfl, by decide⟩

/-! ### The alias scan of `FdsInfo::initialize` -/

/-- linear search for the first index at or after `j` satisfying `p`,
among the next `fuel` indices -/
def firstFrom (p : Nat → Bool) : Nat → Nat → Option Nat
  | _, 0 => none
  | j, fuel + 1 => if p j then some j else firstFrom p (j + 1) fuel

theorem firstFrom_some (p : Nat → Bool) :
    ∀ (fuel j j' : Nat), firstFrom p j fuel = some j' →
      j ≤ j' ∧ j' < j + fuel ∧ p j' = true ∧ ∀ t, j ≤ t → t < j' → p t = false
  | 0, j, j', h => by simp [firstFrom] at h
  | fuel + 1, j, j', h => by
    unfold firstFrom at h
    cases hp : p j with
    | true =>
      rw [if_pos hp] at h
      have hj : j' = j := (Option.some_inj.1 h).symm
      subst hj
      exact ⟨Nat.le_refl _, by omega, hp, fun t ht1 ht2 => absurd ht1 (by omega)⟩
    | false =>
      rw [if_neg (by simp [hp])] at h
      obtain ⟨ih1, ih2, ih3, ih4⟩ := firstFrom_some p fuel (j + 1) j' h
      refine ⟨by omega, by omega, ih3, ?_⟩
      intro t ht1 ht2
      by_cases he : t = j
      · rw [he]; exact hp
      · exact ih4 t (by omega) ht2

theorem firstFrom_none (p : Nat → Bool) :
    ∀ (fuel j : Nat), firstFrom p j fuel = none →
      ∀ t, j ≤ t → t < j + fuel → p t = false
  | 0, j, _, t, ht1, ht2 => absurd ht1 (by omega)
  | fuel + 1, j, h, t, ht1, ht2 => by
    unfold firstFrom at h
    cases hp : p j with
    | true => rw [if_pos hp] at h; exact absurd h (by simp)
    | false =>
      rw [if_neg (by simp [hp])] at h
      by_cases he : t = j
      · rw [he]; exact hp
      · exact firstFrom_none p fuel (j + 1) h t (by omega) (by omega)

theorem firstFrom_intro (p : Nat → Bool) :
    ∀ (fuel j j' : Nat), j ≤ j' → j' < j + fuel → p j' = true →
      (∀ t, j ≤ t → t < j' → p t = false) → firstFrom p j fuel = some j'
  | 0, j, j', h1, h2, _, _ => absurd h1 (by omega)
  | fuel + 1, j, j', h1, h2, h3, h4 => by
    unfold firstFrom
    by_cases he : j' = j
    · subst he
      rw [if_pos h3]
    · rw [if_neg (by simp [h4 j (Nat.le_refl _) (by omega)])]
      exact firstFrom_intro p fuel (j + 1) j' (by omega) (by omega) h3
        (fun t ht1 ht2 => h4 t (by omega) ht2)

/-- the inner loop of the alias pass in `FdsInfo::initialize` for slot `i`:
for `j` ascending, if `get_state(j) == ROOT && same_fd(i, j)` record `j`
and break; the kernel flag state is threaded through every probe and the
short-circuit `&&` skips the probe entirely when `j` is not `ROOT` -/
def findDupGo (k : Kern) (tbl : List (Option Nat)) (s : List FdState) (i : Nat) :
    Nat → Nat → (Nat → Nat) → Option Nat × (Nat → Nat)
  | _, 0, fl => (none, fl)
  | j, fuel + 1, fl =>
    if s.getD j .INVALID = .ROOT then
      let r := same_fd k tbl fl i j
      if r.1 then (some j, r.2) else findDupGo k tbl s i (j + 1) fuel r.2
    else findDupGo k tbl s i (j + 1) fuel fl

/-- the index the inner loop breaks at does not depend on the threaded
flag state: it is the first `j` that is `ROOT` and probe-equivalent -/
theorem findDupGo_fst (k : Kern) (tbl : List (Option Nat)) (s : List FdState)
    (i : Nat) :
    ∀ (fuel j : Nat) (fl : Nat → Nat),
      (findDupGo k tbl s i j fuel fl).1 =
        firstFrom (fun j' => (s.getD j' .INVALID == FdState.ROOT) &&
          sameOFD k tbl i j') j fuel
  | 0, j, fl => by simp [findDupGo, firstFrom]
  | fuel + 1, j, fl => by
    unfold findDupGo firstFrom
    by_cases hr : s.getD j .INVALID = .ROOT
    · rw [if_pos hr]
      dsimp only
      cases hp : (same_fd k tbl fl i j).1 with
      | true =>
        rw [if_pos rfl, if_pos (by rw [← same_fd_fst k tbl fl i j, hp, hr]; simp)]
      | false =>
        rw [if_neg (by simp),
          if_neg (by rw [← same_fd_fst k tbl fl i j, hp, hr]; simp),
          findDupGo_fst k tbl s i fuel (j + 1) ((same_fd k tbl fl i j).2)]
    · have hr2 : (s.getD j FdState.INVALID == FdState.ROOT) = false := by
        rw [List.getD_eq_getElem?_getD] at hr
        simp [hr]
      rw [if_neg hr,
        if_neg (by rw [hr2]; simp),
        findDupGo_fst k tbl s i fuel (j + 1) fl]

/-- the alias pass of `FdsInfo::initialize` up to slot `n`: slot `i` starts
as `CLOSED` (failed `fstat`) or `ROOT`, and is re-classified `DUP_OF j`
when the inner loop breaks at an earlier `ROOT` slot `j` that passes
`same_fd(i, j)`; the kernel flag state is threaded through the probes.
(The `M_CANT_RESTORE` marking in the same loop touches only the mark
bitmask, never the states, and is not modelled here.) -/
def statesGo (k : Kern) (tbl : List (Option Nat)) : Nat → List FdState × (Nat → Nat)
  | 0 => ([], k.flags0)
  | n + 1 =>
    let prev := statesGo k tbl n
    let st0 : FdState :=
      match tbl.getD n none with
      | none => .CLOSED
      | some _ => .ROOT
    let fd := findDupGo k tbl prev.1 n 0 n prev.2
    let st : FdState :=
      match fd.1 with
      | some j => .DUP_OF j
      | none => st0
    (prev.1 ++ [st], fd.2)

/-- the state table the classifier builds for the whole descriptor table -/
def crac_fd_states (k : Kern) (tbl : List (Option Nat)) : List FdState :=
  (statesGo k tbl tbl.length).1

/-- the closed form of one slot's final state: closed slots stay `CLOSED`;
an open slot is `DUP_OF` the first earlier descriptor sharing its open-file
description (with effective flag writes), else `ROOT` -/
def state_spec (k : Kern) (tbl : List (Option Nat)) (i : Nat) : FdState :=
  match tbl.getD i none with
  | none => .CLOSED
  | some _ =>
    match firstFrom (fun j => sameOFD k tbl i j) 0 i with
    | some j => .DUP_OF j
    | none => .ROOT

theorem sameOFD_open (k : Kern) (tbl : List (Option Nat)) (i j : Nat)
    (h : sameOFD k tbl i j = true) :
    ∃ o, tbl.getD i none = some o ∧ tbl.getD j none = some o ∧
      k.setflWorks o = true := by
  unfold sameOFD at h
  cases h1 : tbl.getD i none with
  | none => rw [h1] at h; simp at h
  | some o1 =>
    cases h2 : tbl.getD j none with
    | none => rw [h1, h2] at h; simp at h
    | some o2 =>
      rw [h1, h2] at h
      simp only [Bool.and_eq_true, beq_iff_eq] at h
      exact ⟨o1, rfl, by rw [h.1], h.2⟩

theorem sameOFD_symm (k : Kern) (tbl : List (Option Nat)) (i j : Nat)
    (h : sameOFD k tbl i j = true) : sameOFD k tbl j i = true := by
  obtain ⟨o, h1, h2, hw⟩ := sameOFD_open k tbl i j h
  unfold sameOFD
  rw [h1, h2]
  simp [hw]

theorem sameOFD_trans (k : Kern) (tbl : List (Option Nat)) (a b c : Nat)
    (hab : sameOFD k tbl a b = true) (hbc : sameOFD k tbl b c = true) :
    sameOFD k tbl a c = true := by
  obtain ⟨o, ha, hb, hw⟩ := sameOFD_open k tbl a b hab
  obtain ⟨o2, hb2, hc, _⟩ := sameOFD_open k tbl b c hbc
  have : o2 = o := by rw [hb] at hb2; exact (Option.some_inj.1 hb2).symm
  subst this
  unfold sameOFD
  rw [ha, hc]
  simp [hw]

theorem sameOFD_self (k : Kern) (tbl : List (Option Nat)) (i o : Nat)
    (h : tbl.getD i none = some o) (hw : k.setflWorks o = true) :
    sameOFD k tbl i i = true := by
  unfold sameOFD
  rw [h]
  simp [hw]

theorem getD_map_range (f : Nat → FdState) (n j : Nat) (h : j < n) :
    ((List.range n).map f).getD j .INVALID = f j := by
  rw [List.getD_eq_getElem?_getD, List.getElem?_map, List.getElem?_range h]
  rfl

/-- with the already-final prefix states in place, the inner loop's
`ROOT`-check is redundant: the loop breaks exactly at the first
probe-equivalent earlier slot -/
theorem firstFrom_bridge (k : Kern) (tbl : List (Option Nat)) (n : Nat) :
    firstFrom (fun j => (((List.range n).map (state_spec k tbl)).getD j
        .INVALID == FdState.ROOT) && sameOFD k tbl n j) 0 n =
      firstFrom (fun j => sameOFD k tbl n j) 0 n := by
  cases hA : firstFrom (fun j => sameOFD k tbl n j) 0 n with
  | none =>
    cases hB : firstFrom (fun j => (((List.range n).map (state_spec k tbl)).getD j
        .INVALID == FdState.ROOT) && sameOFD k tbl n j) 0 n with
    | none => rfl
    | some j1 =>
      obtain ⟨_, hlt, hp, _⟩ := firstFrom_some _ n 0 j1 hB
      have hofd : sameOFD k tbl n j1 = true := by
        simp only [Bool.and_eq_true] at hp
        exact hp.2
      have := firstFrom_none _ n 0 hA j1 (Nat.zero_le _) (by omega)
      rw [hofd] at this
      exact absurd this (by simp)
  | some j0 =>
    obtain ⟨_, hlt, hp, hmin⟩ := firstFrom_some _ n 0 j0 hA
    apply firstFrom_intro _ n 0 j0 (Nat.zero_le _) hlt
    · obtain ⟨o, hn, hj0, hw⟩ := sameOFD_open k tbl n j0 hp
      have hroot : state_spec k tbl j0 = .ROOT := by
        unfold state_spec
        rw [hj0]
        cases hF : firstFrom (fun j => sameOFD k tbl j0 j) 0 j0 with
        | none => rfl
        | some j1 =>
          obtain ⟨_, hlt1, hp1, _⟩ := firstFrom_some _ j0 0 j1 hF
          have htr := sameOFD_trans k tbl n j0 j1 hp hp1
          have := hmin j1 (Nat.zero_le _) (by omega)
          rw [htr] at this
          exact absurd this (by simp)
      rw [getD_map_range (state_spec k tbl) n j0 (by omega), hroot, hp]
      simp
    · intro t ht1 ht2
      rw [hmin t ht1 ht2]
      simp

/-- the alias scan computes the closed-form state for every slot -/
theorem statesGo_fst (k : Kern) (tbl : List (Option Nat)) :
    ∀ n, (statesGo k tbl n).1 = (List.range n).map (state_spec k tbl)
  | 0 => by simp [statesGo]
  | n + 1 => by
    unfold statesGo
    rw [List.range_succ, List.map_append, List.map_cons, List.map_nil]
    have ih := statesGo_fst k tbl n
    dsimp only
    rw [ih, findDupGo_fst k tbl _ n n 0, firstFrom_bridge k tbl n]
    congr 1
    unfold state_spec
    cases ht : tbl.getD n none with
    | none =>
      cases hF : firstFrom (fun j => sameOFD k tbl n j) 0 n with
      | none => rfl
      | some j1 =>
        obtain ⟨_, _, hp1, _⟩ := firstFrom_some _ n 0 j1 hF
        obtain ⟨o, hn, _, _⟩ := sameOFD_open k tbl n j1 hp1
        rw [ht] at hn
        exact absurd hn (by simp)
    | some o => rfl

theorem crac_states_getD (k : Kern) (tbl : List (Option Nat)) (i : Nat)
    (h : i < tbl.length) :
    (crac_fd_states k tbl).getD i .INVALID = state_spec k tbl i := by
  unfold crac_fd_states
  rw [statesGo_fst k tbl tbl.length, getD_map_range _ _ _ h]

theorem crac_states_getD_oob (k : Kern) (tbl : List (Option Nat)) (i : Nat)
    (h : ¬ i < tbl.length) :
    (crac_fd_states k tbl).getD i .INVALID = .INVALID := by
  unfold crac_fd_states
  rw [statesGo_fst k tbl tbl.length, List.getD_eq_getElem?_getD,
    List.getElem?_eq_none (by simpa using h)]
  rfl

theorem state_spec_dup (k : Kern) (tbl : List (Option Nat)) (i j : Nat)
    (h : state_spec k tbl i = .DUP_OF j) :
    firstFrom (fun j' => sameOFD k tbl i j') 0 i = some j := by
  unfold state_spec at h
  cases h1 : tbl.getD i none with
  | none => rw [h1] at h; exact absurd h (by simp)
  | some o =>
    rw [h1] at h
    cases hF : firstFrom (fun j' => sameOFD k tbl i j') 0 i with
    | none => rw [hF] at h; exact absurd h (by simp)
    | some j2 =>
      rw [hF] at h
      simp only [FdState.DUP_OF.injEq] at h
      rw [h]

theorem state_spec_root (k : Kern) (tbl : List (Option Nat)) (i : Nat)
    (h : state_spec k tbl i = .ROOT) :
    firstFrom (fun j' => sameOFD k tbl i j') 0 i = none := by
  unfold state_spec at h
  cases h1 : tbl.getD i none with
  | none => rw [h1] at h; exact absurd h (by simp)
  | some o =>
    rw [h1] at h
    cases hF : firstFrom (fun j' => sameOFD k tbl i j') 0 i with
    | none => rfl
    | some j2 => rw [hF] at h; exact absurd h (by simp)

/-- a concrete kernel environment: every open-file description backed by
the same file (device 1, inode 42), status flags 2, effective flag
writes -/
def kDup : Kern :=
  ⟨fun _ => ⟨1, 42, 1, S_IFREG, 0, 0⟩, fun _ => 2, fun _ => true,
   fun _ => ⟨0, 0, 0, 0, 0, 0⟩, 0⟩

/-- C4 counterexample: two descriptors opened separately on the same file —
identical device+inode (and identical status flags, here 2), but two
distinct open-file descriptions 0 and 1 — are both classified `ROOT` and
neither aliases the other: the behavioral probe correctly reports they are
not duplicates, so identical device+inode+flags does not put records into
one alias class with a single canonical ROOT, contrary to the claim. -/
theorem C4_same_identity_two_roots :
    statAt kDup [some 0, some 1] 0 = statAt kDup [some 0, some 1] 1 ∧
    kDup.flags0 0 = kDup.flags0 1 ∧
    crac_fd_states kDup [some 0, some 1] = [FdState.ROOT, FdState.ROOT] := by
  refine ⟨rfl, rfl, ?_⟩
  decide

/-- C4 amended: descriptors duplicated from one open-file description (the
probe confirms: same description, flag writes effective) form one
equivalence class per description: (a) every `DUP_OF j` record points to a
strictly earlier slot that is `ROOT`, shares its description, and is the
lowest-numbered member of the class — so an alias never references another
alias; (b) a class has at most one `ROOT`; (c) a `CLOSED` slot is recorded
`CLOSED` (and by (a) is never the target of an alias); (d) every open slot
of a flag-write-effective description has a `ROOT` representative at or
below its own index. -/
theorem C4_alias_invariants (k : Kern) (tbl : List (Option Nat)) :
    (∀ i j, (crac_fd_states k tbl).getD i .INVALID = .DUP_OF j →
      j < i ∧ (crac_fd_states k tbl).getD j .INVALID = .ROOT ∧
      sameOFD k tbl i j = true ∧
      ∀ j', sameOFD k tbl i j' = true → j ≤ j') ∧
    (∀ i j, sameOFD k tbl i j = true →
      i < tbl.length → j < tbl.length →
      (crac_fd_states k tbl).getD i .INVALID = .ROOT →
      (crac_fd_states k tbl).getD j .INVALID = .ROOT → i = j) ∧
    (∀ i, i < tbl.length → tbl.getD i none = none →
      (crac_fd_states k tbl).getD i .INVALID = .CLOSED) ∧
    (∀ i o, i < tbl.length → tbl.getD i none = some o →
      k.setflWorks o = true →
      ∃ j, j ≤ i ∧ sameOFD k tbl i j = true ∧
        (crac_fd_states k tbl).getD j .INVALID = .ROOT) := by
  have parta : ∀ i j, (crac_fd_states k tbl).getD i .INVALID = .DUP_OF j →
      j < i ∧ (crac_fd_states k tbl).getD j .INVALID = .ROOT ∧
      sameOFD k tbl i j = true ∧
      ∀ j', sameOFD k tbl i j' = true → j ≤ j' := by
    intro i j h
    have hi : i < tbl.length := by
      by_contra hge
      rw [crac_states_getD_oob k tbl i hge] at h
      exact absurd h (by simp)
    rw [crac_states_getD k tbl i hi] at h
    have hF := state_spec_dup k tbl i j h
    obtain ⟨_, hlt, hp, hmin⟩ := firstFrom_some _ i 0 j hF
    obtain ⟨o, hio, hjo, hw⟩ := sameOFD_open k tbl i j hp
    have hji : j < i := by omega
    have hroot : (crac_fd_states k tbl).getD j .INVALID = .ROOT := by
      rw [crac_states_getD k tbl j (by omega)]
      unfold state_spec
      rw [hjo]
      cases hG : firstFrom (fun j' => sameOFD k tbl j j') 0 j with
      | none => rfl
      | some j1 =>
        obtain ⟨_, hlt1, hp1, _⟩ := firstFrom_some _ j 0 j1 hG
        have htr := sameOFD_trans k tbl i j j1 hp hp1
        have := hmin j1 (Nat.zero_le _) (by omega)
        rw [htr] at this
        exact absurd this (by simp)
    refine ⟨hji, hroot, hp, ?_⟩
    intro j' hj'
    by_contra hlt'
    have := hmin j' (Nat.zero_le _) (by omega)
    rw [hj'] at this
    exact absurd this (by simp)
  refine ⟨parta, ?_, ?_, ?_⟩
  · intro i j hofd hi hj hri hrj
    rw [crac_states_getD k tbl i hi] at hri
    rw [crac_states_getD k tbl j hj] at hrj
    have hFi := state_spec_root k tbl i hri
    have hFj := state_spec_root k tbl j hrj
    rcases Nat.lt_trichotomy i j with hlt | heq | hgt
    · have := firstFrom_none _ j 0 hFj i (Nat.zero_le _) (by omega)
      rw [sameOFD_symm k tbl i j hofd] at this
      exact absurd this (by simp)
    · exact heq
    · have := firstFrom_none _ i 0 hFi j (Nat.zero_le _) (by omega)
      rw [hofd] at this
      exact absurd this (by simp)
  · intro i hi hclosed
    rw [crac_states_getD k tbl i hi]
    unfold state_spec
    rw [hclosed]
  · intro i o hi ho hw
    have hself := sameOFD_self k tbl i o ho hw
    cases hF : firstFrom (fun j' => sameOFD k tbl i j') 0 i with
    | none =>
      refine ⟨i, Nat.le_refl _, hself, ?_⟩
      rw [crac_states_getD k tbl i hi]
      unfold state_spec
      rw [ho, hF]
    | some j =>
      have hdup : (crac_fd_states k tbl).getD i .INVALID = .DUP_OF j := by
        rw [crac_states_getD k tbl i hi]
        unfold state_spec
        rw [ho, hF]
      obtain ⟨hji, hroot, hp, _⟩ := parta i j hdup
      exact ⟨j, by omega, hp, hroot⟩

/-- C4 witness: the amended theorem applied to a table where descriptors
0, 1, 2 are duplicates of one description and descriptor 3 is closed —
the alias record at slot 2 points to slot 0, the unique lowest-numbered
ROOT of the class, and the closed slot stays CLOSED. -/
theorem C4_alias_invariants_witness :
    (0 < 2 ∧
      (crac_fd_states kDup [some 5, some 5, some 5, none]).getD 0 .INVALID =
        .ROOT ∧
      sameOFD kDup [some 5, some 5, some 5, none] 2 0 = true ∧
      ∀ j', sameOFD kDup [some 5, some 5, some 5, none] 2 j' = true → 0 ≤ j') ∧
    (crac_fd_states kDup [some 5, some 5, some 5, none]).getD 3 .INVALID =
      .CLOSED := by
  have h := C4_alias_invariants kDup [some 5, some 5, some 5, none]
  exact ⟨h.1 2 0 (by decide), h.2.2.1 3 (by decide) (by decide)⟩

end CracVerify
